import Mathlib

/- Verification of the hidpipe host/guest input-forwarding programs.
   The definitions below are a shallow embedding of the Rust sources:
   hidpipe-shared/src/lib.rs, hidpipe-server/src/main.rs and
   hidpipe-client/src/main.rs.  HashMap values are modelled as
   association lists, machine integers as Nat with explicit reductions
   modulo powers of two, and fallible kernel calls as Except values. -/

namespace Hidpipe

/-- Association-list lookup keyed on decidable equality; models HashMap::get. -/
def lookupA {K V : Type} [DecidableEq K] : List (K × V) → K → Option V
  | [], _ => none
  | p :: rest, k => if p.1 = k then some p.2 else lookupA rest k

/-- Drop every pair carrying the given key; models HashMap::remove. -/
def eraseKeyA {K V : Type} [DecidableEq K] (m : List (K × V)) (k : K) : List (K × V) :=
  m.filter (fun p => decide (¬ p.1 = k))

/-- Overwriting insertion; models HashMap::insert and insert_entry from the server. -/
def insertA {K V : Type} [DecidableEq K] (m : List (K × V)) (k : K) (v : V) : List (K × V) :=
  (k, v) :: eraseKeyA m k

/-- Keys of a map are pairwise distinct (well-formedness of every HashMap model). -/
def WFA {K V : Type} (m : List (K × V)) : Prop := (m.map Prod.fst).Nodup

/-- Little-endian byte image of the low w bytes of a natural number. -/
def encodeBytes : Nat → Nat → List Nat
  | 0, _ => []
  | w + 1, n => n % 256 :: encodeBytes w (n / 256)

/-- Recover a natural number from a little-endian byte list. -/
def decodeBytes : List Nat → Nat
  | [] => 0
  | b :: rest => b + 256 * decodeBytes rest

/-- The u32 cast used by the server when deriving ids from raw fds. -/
def castU32 (n : Nat) : Nat := n % 2 ^ 32

/-- Number of set bits of a natural number. -/
def popcount : Nat → Nat
  | 0 => 0
  | n + 1 => (n + 1) % 2 + popcount ((n + 1) / 2)
decreasing_by exact Nat.div_lt_self (Nat.succ_pos n) Nat.one_lt_two

/-- Message tags, repr(u32) in hidpipe-shared: AddDevice, RemoveDevice, InputEvent. -/
inductive MessageType where
  | AddDevice
  | RemoveDevice
  | InputEvent
deriving DecidableEq

/-- Discriminant values of the repr(u32) enum MessageType. -/
def MessageType.tag : MessageType → Nat
  | .AddDevice => 0
  | .RemoveDevice => 1
  | .InputEvent => 2

/-- input_id as carried inside AddDevice: four 16-bit fields. -/
structure InputId where
  bustype : Nat
  vendor : Nat
  product : Nat
  version : Nat
deriving DecidableEq

/-- The fixed AddDevice record of hidpipe-shared.  The nine capability
bitmasks are modelled as natural numbers read bitwise; id is declared u64
in the shared header. -/
structure AddDevice where
  id : Nat
  evbits : Nat
  keybits : Nat
  relbits : Nat
  absbits : Nat
  mscbits : Nat
  ledbits : Nat
  sndbits : Nat
  swbits : Nat
  propbits : Nat
  input_id : InputId
  ff_effects : Nat
  name : List Nat
deriving DecidableEq

/-- The RemoveDevice record: a single u64 id. -/
structure RemoveDevice where
  id : Nat
deriving DecidableEq

/-- The InputEvent record of hidpipe-shared: i64 seconds, i64 microseconds,
u64 id, i32 value, u16 type, u16 code. -/
structure InputEvent where
  time_sec : Int
  time_usec : Int
  id : Nat
  value : Int
  ty : Nat
  code : Nat
deriving DecidableEq

/-- A raw kernel input_event as read from an evdev or uinput handle. -/
structure RawEvent where
  tv_sec : Int
  tv_usec : Int
  type_ : Nat
  code : Nat
  value : Int
deriving DecidableEq

/-- InputEvent::new from hidpipe-shared: pair an id with a raw kernel event. -/
def InputEvent.new (id : Nat) (e : RawEvent) : InputEvent :=
  { time_sec := e.tv_sec, time_usec := e.tv_usec, id := id,
    value := e.value, ty := e.type_, code := e.code }

/-- Per-axis calibration record (input_linux AbsoluteInfo): six i32 fields. -/
structure AbsoluteInfo where
  value : Int
  minimum : Int
  maximum : Int
  fuzz : Int
  flat : Int
  resolution : Int
deriving DecidableEq

/-- Two-complement bit pattern of an integer in w bits. -/
def toU (w : Nat) (x : Int) : Nat := (x % ((2 : Int) ^ w)).toNat

/-- Host-side byte serialization of an InputEvent record, repr(C):
offsets 0,8,16,24,28,30 and total size 32. -/
def encodeInputEvent (ev : InputEvent) : List Nat :=
  encodeBytes 8 (toU 64 ev.time_sec) ++ encodeBytes 8 (toU 64 ev.time_usec) ++
    encodeBytes 8 ev.id ++ encodeBytes 4 (toU 32 ev.value) ++
    encodeBytes 2 ev.ty ++ encodeBytes 2 ev.code

/-- Host-side byte serialization of a RemoveDevice record: the u64 id. -/
def encodeRemoveDevice (r : RemoveDevice) : List Nat := encodeBytes 8 r.id

/-- Guest-side reinterpretation of RemoveDevice bytes (client main.rs). -/
def decodeRemoveDevice (bs : List Nat) : RemoveDevice := ⟨decodeBytes (bs.take 8)⟩

/-- Guest-side extraction of the u64 id field from InputEvent bytes: the
eight bytes at offset 16. -/
def guestInputEventIdOfBytes (bs : List Nat) : Nat := decodeBytes ((bs.drop 16).take 8)

/-- Server main.rs line 345: InputEvent::new(fd as u32, event). -/
def serverInputEventFrame (fd : Nat) (e : RawEvent) : InputEvent :=
  InputEvent.new (castU32 fd) e

/-- Device property bits of input_linux consulted by the probe. -/
inductive InputProperty where
  | Pointer
  | Direct
  | ButtonPad
  | SemiMultiTouch
  | TopButtonPad
  | PointingStick
  | Accelerometer
deriving DecidableEq

/-- Event kinds of input_linux. -/
inductive EventKind where
  | Synchronize
  | Key
  | Relative
  | Absolute
  | Misc
  | Switch
  | Led
  | Sound
  | Repeat
  | ForceFeedback
deriving DecidableEq

/-- Absolute axes consulted by the probe plus a few bystanders. -/
inductive AbsoluteAxis where
  | X
  | Y
  | Z
  | RX
  | RY
  | RZ
  | Throttle
  | Rudder
  | Wheel
  | Gas
  | Brake
  | Hat0X
  | Hat0Y
deriving DecidableEq

/-- Key and button codes consulted by the probe plus a few bystanders. -/
inductive Key where
  | ButtonTrigger
  | ButtonThumb
  | ButtonTop
  | ButtonSouth
  | ButtonEast
  | ButtonNorth
  | ButtonWest
  | Button0
  | Button1
  | Button2
deriving DecidableEq

/-- The four fallible probe reads an EvdevHandle offers to is_joystick;
each models one ioctl that can fail with an errno. -/
structure EvdevProbe where
  device_properties : Except Nat (List InputProperty)
  event_bits : Except Nat (List EventKind)
  absolute_mask : Except Nat (List AbsoluteAxis)
  key_mask : Except Nat (List Key)

/-- is_joystick from hidpipe-server main.rs lines 19-49, with each
question-mark propagation written as an explicit match. -/
def is_joystick (d : EvdevProbe) : Except Nat Bool :=
  match d.device_properties with
  | .error e => .error e
  | .ok props =>
    if InputProperty.Accelerometer ∈ props ∨ InputProperty.PointingStick ∈ props ∨
        InputProperty.TopButtonPad ∈ props ∨ InputProperty.ButtonPad ∈ props ∨
        InputProperty.SemiMultiTouch ∈ props then
      .ok false
    else
      match d.event_bits with
      | .error e => .error e
      | .ok events =>
        if ¬ EventKind.Absolute ∈ events then
          .ok false
        else
          match d.absolute_mask with
          | .error e => .error e
          | .ok axes =>
            if ¬ AbsoluteAxis.X ∈ axes ∨ ¬ AbsoluteAxis.Y ∈ axes then
              .ok false
            else
              match d.key_mask with
              | .error e => .error e
              | .ok keys =>
                .ok (decide (Key.ButtonTrigger ∈ keys ∨ Key.ButtonSouth ∈ keys ∨
                  Key.Button1 ∈ keys ∨ AbsoluteAxis.RX ∈ axes ∨ AbsoluteAxis.RY ∈ axes ∨
                  AbsoluteAxis.Throttle ∈ axes ∨ AbsoluteAxis.Rudder ∈ axes ∨
                  AbsoluteAxis.Wheel ∈ axes ∨ AbsoluteAxis.Gas ∈ axes ∨
                  AbsoluteAxis.Brake ∈ axes))

/-- Claim-side property veto of C3: any of the five listed properties set. -/
def joystickDenyProps (props : List InputProperty) : Bool :=
  decide (InputProperty.Accelerometer ∈ props ∨ InputProperty.PointingStick ∈ props ∨
    InputProperty.TopButtonPad ∈ props ∨ InputProperty.ButtonPad ∈ props ∨
    InputProperty.SemiMultiTouch ∈ props)

/-- Claim-side classification formula of C3, stated from the wording of the
spec: NO on a denied property, a missing absolute event kind, or X and Y not
both present; otherwise YES iff one of the listed keys or axes is set. -/
def is_joystick_claim (props : List InputProperty) (events : List EventKind)
    (axes : List AbsoluteAxis) (keys : List Key) : Bool :=
  if joystickDenyProps props then false
  else if EventKind.Absolute ∉ events then false
  else if ¬ (AbsoluteAxis.X ∈ axes ∧ AbsoluteAxis.Y ∈ axes) then false
  else decide (Key.ButtonTrigger ∈ keys ∨ Key.ButtonSouth ∈ keys ∨
    Key.Button1 ∈ keys ∨ AbsoluteAxis.RX ∈ axes ∨ AbsoluteAxis.RY ∈ axes ∨
    AbsoluteAxis.Throttle ∈ axes ∨ AbsoluteAxis.Rudder ∈ axes ∨
    AbsoluteAxis.Wheel ∈ axes ∨ AbsoluteAxis.Gas ∈ axes ∨
    AbsoluteAxis.Brake ∈ axes)

/-- Width in bits of the AbsoluteAxis bitmask array (ABS_CNT = 0x40). -/
def ABS_CNT : Nat := 64

/-- Ascending iteration over the set bits of a bitmask of the given width;
models input_linux Bitmask::iter. -/
def bitmaskIter (width m : Nat) : List Nat :=
  (List.range width).filter (fun i => m.testBit i)

/-- A live evdev device as the server sees it once all capability reads of
send_add_device have succeeded: the raw fd plus the nine masks, identifiers
and per-axis calibration. -/
structure EvdevDevice where
  fd : Nat
  evbits : Nat
  keybits : Nat
  relbits : Nat
  absbits : Nat
  mscbits : Nat
  ledbits : Nat
  sndbits : Nat
  swbits : Nat
  propbits : Nat
  input_id : InputId
  ff_effects : Nat
  name : List Nat
  absinfo : Nat → AbsoluteInfo

/-- The AddDevice record built by send_add_device (server main.rs lines
51-71); note the id is the raw fd cast to u32 at line 64. -/
def mkAddDevice (d : EvdevDevice) : AddDevice :=
  { id := castU32 d.fd, evbits := d.evbits, keybits := d.keybits,
    relbits := d.relbits, absbits := d.absbits, mscbits := d.mscbits,
    ledbits := d.ledbits, sndbits := d.sndbits, swbits := d.swbits,
    propbits := d.propbits, input_id := d.input_id,
    ff_effects := d.ff_effects, name := d.name }

/-- One framed item written onto a client socket. -/
inductive WireItem where
  | msgTag (t : MessageType)
  | addDev (r : AddDevice)
  | absInfo (a : AbsoluteInfo)
  | removeDev (r : RemoveDevice)
  | inputEv (e : InputEvent)
  | serverHello (version : Nat)
deriving DecidableEq

/-- The item sequence written by send_add_device: the AddDevice tag, the
fixed record, then one AbsoluteInfo per set bit of the absolute mask in the
ascending order of Bitmask::iter (server main.rs lines 67-75). -/
def sendAddDevice (d : EvdevDevice) : List WireItem :=
  WireItem.msgTag MessageType.AddDevice :: WireItem.addDev (mkAddDevice d) ::
    (bitmaskIter ABS_CNT d.absbits).map (fun b => WireItem.absInfo (d.absinfo b))

/-- bitmask_from_slice from client main.rs: copy the received byte array
into a fresh Bitmask, keeping exactly the low ABS_CNT bits. -/
def bitmaskFromSlice (m : Nat) : Nat := m % 2 ^ 64

/-- The ascending list of absolute-axis bits for which init_uinput reads one
AbsoluteInfo record from the stream (client main.rs lines 51-69). -/
def clientAbsReads (absbits : Nat) : List Nat :=
  bitmaskIter ABS_CNT (bitmaskFromSlice absbits)

/-- Is a wire item an AbsoluteInfo record. -/
def isAbsInfoItem : WireItem → Bool
  | .absInfo _ => true
  | _ => false

/-- Is a wire item a ServerHello. -/
def isServerHelloItem : WireItem → Bool
  | .serverHello _ => true
  | _ => false

/-- The sysname character prefix tested by check_and_add. -/
def evChars : List Char := ['e', 'v', 'e', 'n', 't']

/-- Boolean list-prefix test; models str::starts_with on the sysname. -/
def isPrefixOfL : List Char → List Char → Bool
  | [], _ => true
  | _ :: _, [] => false
  | a :: as, b :: bs => decide (a = b) && isPrefixOfL as bs

/-- The two registry maps of the server (EvdevContainer): fd to open handle
and sysname to fd.  Handles are modelled by their fd number. -/
structure EvdevContainer where
  fds_to_devs : List (Nat × Nat)
  names_to_fds : List (List Char × Nat)
deriving DecidableEq

/-- check_and_add from server main.rs lines 101-116.  The open(2) outcome
and the is_joystick outcome are passed in as the two fallible results; on a
positive probe the name map and the fd map are both overwritten at their
respective keys and the freshly opened fd is returned. -/
def check_and_add (st : EvdevContainer) (dev_name : List Char)
    (openRes : Except Nat Nat) (probeRes : Except Nat Bool) :
    Except Nat (EvdevContainer × Option Nat) :=
  if !(isPrefixOfL evChars dev_name) then .ok (st, none)
  else
    match openRes with
    | .error e => .error e
    | .ok fd =>
      match probeRes with
      | .error e => .error e
      | .ok false => .ok (st, none)
      | .ok true =>
        .ok ({ names_to_fds := insertA st.names_to_fds dev_name fd,
               fds_to_devs := insertA st.fds_to_devs fd fd }, some fd)

/-- EvdevContainer::remove from server main.rs lines 117-126: drop the name
entry, truncate the stored fd to u32, drop that fd entry, return the id. -/
def EvdevContainer.remove (st : EvdevContainer) (dev_name : List Char) :
    EvdevContainer × Option Nat :=
  match lookupA st.names_to_fds dev_name with
  | none => (st, none)
  | some id =>
    ({ names_to_fds := eraseKeyA st.names_to_fds dev_name,
       fds_to_devs := eraseKeyA st.fds_to_devs (castU32 id) }, some (castU32 id))

/-- One-to-one correspondence of the two host maps: the fd keys and the
stored fds agree as multisets and all key columns are duplicate free. -/
def hostBijection (st : EvdevContainer) : Prop :=
  (st.fds_to_devs.map Prod.fst).Perm (st.names_to_fds.map Prod.snd) ∧
    (st.names_to_fds.map Prod.snd).Nodup ∧
    (st.fds_to_devs.map Prod.fst).Nodup ∧
    (st.names_to_fds.map Prod.fst).Nodup

/-- Guest-side state: inputs_by_id, fd_to_id and the set of synthetic fds
registered with the reactor.  Uinput handles are modelled by their fd. -/
structure GuestState where
  inputs_by_id : List (Nat × Nat)
  fd_to_id : List (Nat × Nat)
  epollFds : List Nat
deriving DecidableEq

/-- Externally visible guest actions: destroying a synthetic device and
writing an event into one. -/
inductive GuestEffect where
  | destroy (fd : Nat)
  | writeEv (fd : Nat) (ev : InputEvent)
deriving DecidableEq

/-- The AddDevice arm of the guest dispatcher (client main.rs lines
132-138): register the fresh synthetic fd and fill both maps. -/
def guestAdd (st : GuestState) (id newFd : Nat) : GuestState :=
  { inputs_by_id := insertA st.inputs_by_id id newFd,
    fd_to_id := insertA st.fd_to_id newFd id,
    epollFds := newFd :: st.epollFds }

/-- The RemoveDevice arm (client main.rs lines 139-150): if the id is
known, deregister the synthetic fd, destroy the device and drop it from
both maps; otherwise do nothing. -/
def guestRemove (st : GuestState) (id : Nat) : GuestState × List GuestEffect :=
  match lookupA st.inputs_by_id id with
  | none => (st, [])
  | some ufd =>
    ({ inputs_by_id := eraseKeyA st.inputs_by_id id,
       fd_to_id := eraseKeyA st.fd_to_id ufd,
       epollFds := st.epollFds.filter (fun x => decide (¬ x = ufd)) },
     [GuestEffect.destroy ufd])

/-- The InputEvent arm (client main.rs lines 151-162): unknown ids are
silently dropped, known ids get the event written to their device. -/
def guestInput (st : GuestState) (ev : InputEvent) : GuestState × List GuestEffect :=
  match lookupA st.inputs_by_id ev.id with
  | none => (st, [])
  | some ufd => (st, [GuestEffect.writeEv ufd ev])

/-- ADD_DEVICE constant of client main.rs. -/
def ADD_DEVICE : Nat := MessageType.AddDevice.tag

/-- REMOVE_DEVICE constant of client main.rs. -/
def REMOVE_DEVICE : Nat := MessageType.RemoveDevice.tag

/-- INPUT_EVENT constant of client main.rs. -/
def INPUT_EVENT : Nat := MessageType.InputEvent.tag

/-- The guest tag dispatcher (client main.rs lines 131-164).  The stream
would supply whichever payload the tag selects, so all three candidate
payloads are parameters; a tag outside the three constants is fatal,
modelled as none. -/
def guestDispatch (st : GuestState) (tag : Nat) (addRec : AddDevice)
    (newFd : Nat) (remRec : RemoveDevice) (evRec : InputEvent) :
    Option (GuestState × List GuestEffect) :=
  if tag = ADD_DEVICE then some (guestAdd st addRec.id newFd, [])
  else if tag = REMOVE_DEVICE then some (guestRemove st remRec.id)
  else if tag = INPUT_EVENT then some (guestInput st evRec)
  else none

/-- One-to-one correspondence of the two guest maps: fd_to_id is exactly
inputs_by_id with the pair components swapped, and keys are duplicate free. -/
def guestBijection (g : GuestState) : Prop :=
  (g.inputs_by_id.map (fun p => (p.2, p.1))).Perm g.fd_to_id ∧
    (g.inputs_by_id.map Prod.fst).Nodup ∧ (g.fd_to_id.map Prod.fst).Nodup

/-- A connected client as the server holds it: the ready flag, the partial
read buffer with its fill count, and a socket write model.  failAt gives
the index of the first write on this socket that would fail, none meaning
all writes succeed. -/
structure SClient where
  ready : Bool
  buf : List Nat
  filled : Nat
  failAt : Option Nat
deriving DecidableEq

/-- Attempt a sequence of framed writes on a socket with the given failure
point: the successfully written prefix plus whether all writes succeeded. -/
def runWrites (failAt : Option Nat) (ws : List WireItem) : List WireItem × Bool :=
  match failAt with
  | none => (ws, true)
  | some k => if ws.length ≤ k then (ws, true) else (ws.take k, false)

/-- The writes attempted by the hello closure of server main.rs lines
323-332: one ServerHello with version 0, then a full AddDevice sequence for
each device currently in the registry. -/
def helloWrites (devs : List EvdevDevice) : List WireItem :=
  WireItem.serverHello 0 :: (devs.map sendAddDevice).flatten

/-- The hello closure run inside one hangup_on_error scope: on full success
the client is retained with ready set to true, on any write error it is
dropped; either way the written prefix is reported. -/
def processHello (devs : List EvdevDevice) (c : SClient) :
    Option SClient × List WireItem :=
  let r := runWrites c.failAt (helloWrites devs)
  if r.2 then (some { c with ready := true }, r.1) else (none, r.1)

/-- hangup_on_error_bcast from server main.rs lines 208-219: apply the
writer to every client in turn, retain exactly those whose writes all
succeeded, and record the prefix actually written to each socket. -/
def bcast (f : SClient → List WireItem) :
    List (Nat × SClient) → List (Nat × SClient) × List (Nat × List WireItem)
  | [] => ([], [])
  | p :: rest =>
    let r := runWrites p.2.failAt (f p.2)
    let tailRes := bcast f rest
    (if r.2 then p :: tailRes.1 else tailRes.1, (p.1, r.1) :: tailRes.2)

/-- The evdev broadcast closure of server main.rs lines 346-352: skip a
client that is not ready, otherwise write the InputEvent tag and record. -/
def inputEvClosure (ev : InputEvent) (c : SClient) : List WireItem :=
  if c.ready then [WireItem.msgTag MessageType.InputEvent, WireItem.inputEv ev]
  else []

/-- The hotplug removal closure of server main.rs lines 274-277: write the
RemoveDevice tag and record to every client, ready or not. -/
def removeClosure (id : Nat) (_c : SClient) : List WireItem :=
  [WireItem.msgTag MessageType.RemoveDevice, WireItem.removeDev ⟨id⟩]

/-- The hotplug addition closure of server main.rs lines 293-295: send the
full AddDevice sequence to every client, ready or not. -/
def addClosure (d : EvdevDevice) (_c : SClient) : List WireItem :=
  sendAddDevice d

/-- The partial-read state of a client: the in-flight buffer and how many
of its bytes are filled. -/
structure ClientBuf where
  buf : List Nat
  filled : Nat
deriving DecidableEq

/-- The three non-error results of Client::read. -/
inductive ReadReply where
  | data (bytes : List Nat)
  | notReady
  | hangup
deriving DecidableEq

/-- Full outcome of Client::read: the api-misuse abort, an I/O error, or a
reply, each together with the buffer state left behind. -/
inductive ReadOutcome where
  | apiMisuse
  | ioError (e : Nat) (st : ClientBuf)
  | ok (r : ReadReply) (st : ClientBuf)
deriving DecidableEq

/-- The body of Client::read after the allocation check (server main.rs
lines 163-175).  sock is the outcome of the one non-blocking socket read
into the unfilled tail: an errno or the chunk of bytes obtained. -/
def clientReadCore (c : ClientBuf) (size : Nat) (sock : Except Nat (List Nat)) :
    ReadOutcome :=
  match sock with
  | .error e => .ioError e c
  | .ok chunk =>
    if chunk.length = 0 then .ok .hangup c
    else
      let buf1 := c.buf.take c.filled ++ chunk ++ c.buf.drop (c.filled + chunk.length)
      let filled1 := c.filled + chunk.length
      if filled1 = size then .ok (.data buf1) ⟨[], 0⟩
      else .ok .notReady ⟨buf1, filled1⟩

/-- Client::read from server main.rs lines 157-176: allocate the buffer on
first use, abort on a size mismatch, then perform one read. -/
def clientRead (c : ClientBuf) (size : Nat) (sock : Except Nat (List Nat)) :
    ReadOutcome :=
  if c.buf.length = 0 then clientReadCore ⟨List.replicate size 0, c.filled⟩ size sock
  else if ¬ c.buf.length = size then ReadOutcome.apiMisuse
  else clientReadCore c size sock

/-- Byte size of a ClientHello record (one u32). -/
def helloSize : Nat := 4

/-- The client-readiness arm of the server reactor (main.rs lines 315-332):
ignore the wake when the client is ready, otherwise run the partial hello
read via recv_from_client and, once a full record arrived, the hello
closure under hangup_on_error.  Returns none on the api-misuse abort, and
otherwise the new client table plus the items written to this client. -/
def clientWake (clients : List (Nat × SClient)) (devs : List EvdevDevice)
    (fd : Nat) (sock : Except Nat (List Nat)) :
    Option (List (Nat × SClient) × List WireItem) :=
  match lookupA clients fd with
  | none => some (clients, [])
  | some c =>
    if c.ready then some (clients, [])
    else
      match clientRead ⟨c.buf, c.filled⟩ helloSize sock with
      | .apiMisuse => none
      | .ioError _ _ => some (eraseKeyA clients fd, [])
      | .ok .hangup _ => some (eraseKeyA clients fd, [])
      | .ok .notReady st =>
        some (insertA clients fd { c with buf := st.buf, filled := st.filled }, [])
      | .ok (.data _) _ =>
        match processHello devs { c with buf := [], filled := 0 } with
        | (some c2, sent) => some (insertA clients fd c2, sent)
        | (none, sent) => some (eraseKeyA clients fd, sent)

/-- The sysname used in the concrete hotplug scenarios. -/
def ev0Chars : List Char := ['e', 'v', 'e', 'n', 't', '0']

/-- Registry holding the single device event0 opened on fd 3. -/
def regOne : EvdevContainer := ⟨[(3, 3)], [(ev0Chars, 3)]⟩

/-- Registry left behind by a second add of event0 on the fresh fd 4:
the name entry was overwritten but the stale fd entry survived. -/
def regTwo : EvdevContainer := ⟨[(4, 4), (3, 3)], [(ev0Chars, 4)]⟩

/-- A concrete joystick-like device used by the witnesses: fd 7, absolute
axes 0 and 1 set, one calibration record for every axis. -/
def devA : EvdevDevice :=
  { fd := 7, evbits := 8, keybits := 1, relbits := 0, absbits := 3,
    mscbits := 0, ledbits := 0, sndbits := 0, swbits := 0, propbits := 0,
    input_id := ⟨3, 1, 2, 0⟩, ff_effects := 0, name := [],
    absinfo := fun _ => ⟨0, -32768, 32767, 16, 128, 0⟩ }

/-- A concrete ready client whose writes all succeed. -/
def readyClient : SClient := { ready := true, buf := [], filled := 0, failAt := none }

/-- A concrete client still waiting for its hello, writes succeeding. -/
def newClient : SClient := { ready := false, buf := [], filled := 0, failAt := none }

/-- The buffer as it stands right after the allocation step of
Client::read: resized to the requested size when it was empty, untouched
otherwise. -/
def allocBuf (c : ClientBuf) (size : Nat) : List Nat :=
  if c.buf.length = 0 then List.replicate size 0 else c.buf

/-- The state transition the server performs once a full ClientHello record
has been collected for a not-ready client: run the hello closure under the
unicast hangup-on-error scope, updating or dropping the client. -/
def helloStep (clients : List (Nat × SClient)) (devs : List EvdevDevice)
    (fd : Nat) (c : SClient) : List (Nat × SClient) × List WireItem :=
  match processHello devs { c with buf := [], filled := 0 } with
  | (some c2, sent) => (insertA clients fd c2, sent)
  | (none, sent) => (eraseKeyA clients fd, sent)

/-- A concrete input event used by the witnesses. -/
def evX : InputEvent := ⟨0, 0, 7, 1234, 3, 0⟩

theorem length_encodeBytes (w : Nat) : ∀ n, (encodeBytes w n).length = w := by
  induction w with
  | zero => intro n; rfl
  | succ w ih => intro n; simp [encodeBytes, ih]

theorem decodeBytes_encodeBytes (w : Nat) :
    ∀ n, decodeBytes (encodeBytes w n) = n % 256 ^ w := by
  induction w with
  | zero => intro n; simp [encodeBytes, decodeBytes, Nat.mod_one]
  | succ w ih =>
    intro n
    rw [encodeBytes, decodeBytes, ih, pow_succ, Nat.mul_comm (256 ^ w) 256, Nat.mod_mul]

theorem countP_testBit_range (w : Nat) : ∀ m, m < 2 ^ w →
    (List.range w).countP (fun i => m.testBit i) = popcount m := by
  induction w with
  | zero =>
    intro m hm
    have hm0 : m = 0 := by simpa using hm
    subst hm0
    simp [popcount]
  | succ w ih =>
    intro m hm
    rw [List.range_succ_eq_map, List.countP_cons, List.countP_map]
    have hdiv : m / 2 < 2 ^ w := by
      refine (Nat.div_lt_iff_lt_mul two_pos).mpr ?_
      rw [pow_succ] at hm
      exact hm
    have hcomp : ((fun i => m.testBit i) ∘ Nat.succ) = fun i => (m / 2).testBit i := by
      funext i
      simp [Function.comp, Nat.testBit_succ]
    rw [hcomp, ih (m / 2) hdiv]
    match m with
    | 0 => simp [popcount, Nat.testBit_zero]
    | Nat.succ n =>
      rw [Nat.testBit_zero]
      rcases Nat.mod_two_eq_zero_or_one (n + 1) with h | h
      · simp [popcount, h]
      · simp [popcount, h, Nat.add_comm]

theorem bitmaskIter_length (w m : Nat) (hm : m < 2 ^ w) :
    (bitmaskIter w m).length = popcount m := by
  rw [bitmaskIter, ← List.countP_eq_length_filter, countP_testBit_range w m hm]

theorem bitmaskIter_mod (m : Nat) : bitmaskIter 64 (m % 2 ^ 64) = bitmaskIter 64 m := by
  unfold bitmaskIter
  refine List.filter_congr ?_
  intro i hi
  rw [Nat.testBit_mod_two_pow]
  simp [List.mem_range.mp hi]

theorem bitmaskIter_ascending (w m : Nat) :
    (bitmaskIter w m).Pairwise (fun a b => a < b) :=
  List.Pairwise.sublist (List.filter_sublist _) (List.pairwise_lt_range w)

theorem eraseKeyA_of_not_mem {K V : Type} [DecidableEq K] (m : List (K × V)) (k : K)
    (h : k ∉ m.map Prod.fst) : eraseKeyA m k = m := by
  rw [eraseKeyA, List.filter_eq_self]
  intro p hp
  simp only [decide_eq_true_eq]
  intro hk
  exact h (List.mem_map.mpr ⟨p, hp, hk⟩)

theorem eraseKeyA_sublist {K V : Type} [DecidableEq K] (m : List (K × V)) (k : K) :
    (eraseKeyA m k).Sublist m := List.filter_sublist m

theorem mem_of_lookupA {K V : Type} [DecidableEq K] :
    ∀ (m : List (K × V)) (k : K) (v : V), lookupA m k = some v → (k, v) ∈ m := by
  intro m k v
  induction m with
  | nil => intro h; simp [lookupA] at h
  | cons p rest ih =>
    intro h
    rw [lookupA] at h
    by_cases hk : p.1 = k
    · rw [if_pos hk] at h
      cases p with
      | mk a b =>
        injection h with hv
        simp only at hk
        subst hk
        subst hv
        exact List.mem_cons_self _ _
    · rw [if_neg hk] at h
      exact List.mem_cons_of_mem _ (ih h)

theorem lookupA_of_mem_nodup {K V : Type} [DecidableEq K] :
    ∀ (m : List (K × V)) (k : K) (v : V), (k, v) ∈ m → WFA m → lookupA m k = some v := by
  intro m k v
  induction m with
  | nil => intro h _; simp at h
  | cons p rest ih =>
    intro hmem hwf
    rw [WFA, List.map_cons, List.nodup_cons] at hwf
    rcases List.mem_cons.mp hmem with heq | htail
    · rw [← heq, lookupA, if_pos rfl]
    · have hne : ¬ p.1 = k := by
        intro hk
        exact hwf.1 (hk ▸ List.mem_map.mpr ⟨(k, v), htail, rfl⟩)
      rw [lookupA, if_neg hne]
      exact ih htail hwf.2

theorem exists_lookupA_of_mem_keys {K V : Type} [DecidableEq K] :
    ∀ (m : List (K × V)) (k : K), k ∈ m.map Prod.fst → ∃ v, lookupA m k = some v := by
  intro m k
  induction m with
  | nil => intro h; simp at h
  | cons p rest ih =>
    intro h
    by_cases hk : p.1 = k
    · exact ⟨p.2, by rw [lookupA, if_pos hk]⟩
    · have htail : k ∈ rest.map Prod.fst := by
        rcases List.mem_map.mp h with ⟨q, hq, hqk⟩
        rcases List.mem_cons.mp hq with rfl | hqr
        · exact absurd hqk hk
        · exact List.mem_map.mpr ⟨q, hqr, hqk⟩
      obtain ⟨v, hv⟩ := ih htail
      exact ⟨v, by rw [lookupA, if_neg hk]; exact hv⟩

theorem perm_cons_eraseKeyA {K V : Type} [DecidableEq K] :
    ∀ (m : List (K × V)) (k : K) (v : V), WFA m → lookupA m k = some v →
      m.Perm ((k, v) :: eraseKeyA m k) := by
  intro m k v
  induction m with
  | nil => intro _ h; simp [lookupA] at h
  | cons p rest ih =>
    intro hwf hl
    rw [WFA, List.map_cons, List.nodup_cons] at hwf
    rw [lookupA] at hl
    by_cases hk : p.1 = k
    · rw [if_pos hk] at hl
      injection hl with hv
      have herase : eraseKeyA (p :: rest) k = eraseKeyA rest k := by
        simp [eraseKeyA, List.filter_cons, hk]
      have hfresh : eraseKeyA rest k = rest := by
        refine eraseKeyA_of_not_mem rest k ?_
        rw [← hk]
        exact hwf.1
      rw [herase, hfresh]
      cases p with
      | mk a b =>
        simp only at hk hv
        subst hk
        subst hv
        exact List.Perm.refl _
    · rw [if_neg hk] at hl
      have herase : eraseKeyA (p :: rest) k = p :: eraseKeyA rest k := by
        simp [eraseKeyA, List.filter_cons, hk]
      rw [herase]
      exact ((ih hwf.2 hl).cons p).trans (List.Perm.swap (k, v) p _)

theorem bcast_fst (f : SClient → List WireItem) :
    ∀ cl : List (Nat × SClient),
      (bcast f cl).1 = cl.filter (fun p => (runWrites p.2.failAt (f p.2)).2) := by
  intro cl
  induction cl with
  | nil => rfl
  | cons p rest ih =>
    rw [List.filter_cons]
    cases hr : (runWrites p.2.failAt (f p.2)).2 <;> simp [bcast, hr, ih]

theorem bcast_snd (f : SClient → List WireItem) :
    ∀ cl : List (Nat × SClient),
      (bcast f cl).2 = cl.map (fun p => (p.1, (runWrites p.2.failAt (f p.2)).1)) := by
  intro cl
  induction cl with
  | nil => rfl
  | cons p rest ih => simp [bcast, ih]

theorem lookupA_map_keyed {K V W : Type} [DecidableEq K] (g : K → V → W) :
    ∀ (m : List (K × V)) (k : K) (v : V), WFA m → (k, v) ∈ m →
      lookupA (m.map (fun p => (p.1, g p.1 p.2))) k = some (g k v) := by
  intro m k v hwf hmem
  refine lookupA_of_mem_nodup _ k (g k v) ?_ ?_
  · exact List.mem_map.mpr ⟨(k, v), hmem, rfl⟩
  · rw [WFA, List.map_map]
    have : (Prod.fst ∘ fun p : K × V => (p.1, g p.1 p.2)) = Prod.fst := by
      funext p
      rfl
    rw [this]
    exact hwf

theorem countP_serverHello_sendAddDevice (d : EvdevDevice) :
    (sendAddDevice d).countP isServerHelloItem = 0 := by
  rw [sendAddDevice]
  simp [List.countP_cons, isServerHelloItem, List.countP_map, List.countP_eq_zero,
    Function.comp]

theorem countP_serverHello_helloWrites (devs : List EvdevDevice) :
    (helloWrites devs).countP isServerHelloItem = 1 := by
  rw [helloWrites, List.countP_cons]
  have hz : (devs.map sendAddDevice).flatten.countP isServerHelloItem = 0 := by
    rw [List.countP_flatten]
    refine List.sum_eq_zero ?_
    intro x hx
    rcases List.mem_map.mp hx with ⟨l, hl, hxl⟩
    rcases List.mem_map.mp hl with ⟨d, _, hld⟩
    rw [← hxl, ← hld]
    exact countP_serverHello_sendAddDevice d
  rw [hz]
  simp [isServerHelloItem]

/-- C1: the id field of AddDevice, RemoveDevice and InputEvent is a 64-bit
integer laid out identically for both peers (8 little-endian bytes, at
offset 16 inside InputEvent), the guest reinterpretation recovers the value
modulo 2 to the 64, and the server fills every frame kind of a live device
with the same id derived from the raw fd of its evdev handle (the fd cast
to u32, which always fits the 64-bit field). -/
theorem C1_device_id_width :
    (∀ n : Nat, (encodeBytes 8 n).length = 8 ∧
      decodeBytes (encodeBytes 8 n) = n % 2 ^ 64) ∧
    (∀ ev : InputEvent, (encodeInputEvent ev).length = 32 ∧
      ((encodeInputEvent ev).drop 16).take 8 = encodeBytes 8 ev.id ∧
      guestInputEventIdOfBytes (encodeInputEvent ev) = ev.id % 2 ^ 64) ∧
    (∀ r : RemoveDevice, (encodeRemoveDevice r).length = 8 ∧
      decodeRemoveDevice (encodeRemoveDevice r) = ⟨r.id % 2 ^ 64⟩) ∧
    (∀ d : EvdevDevice, (mkAddDevice d).id = castU32 d.fd) ∧
    (∀ (fd : Nat) (e : RawEvent), (serverInputEventFrame fd e).id = castU32 fd) ∧
    (∀ (st : EvdevContainer) (dev_name : List Char) (fd : Nat),
      lookupA st.names_to_fds dev_name = some fd →
      (EvdevContainer.remove st dev_name).2 = some (castU32 fd)) ∧
    (∀ fd : Nat, castU32 fd < 2 ^ 64) := by
  have hpow : (256 : Nat) ^ 8 = 2 ^ 64 := by norm_num
  have hslice : ∀ ev : InputEvent,
      ((encodeInputEvent ev).drop 16).take 8 = encodeBytes 8 ev.id := by
    intro ev
    have hassoc : encodeInputEvent ev =
        (encodeBytes 8 (toU 64 ev.time_sec) ++ encodeBytes 8 (toU 64 ev.time_usec)) ++
          (encodeBytes 8 ev.id ++ (encodeBytes 4 (toU 32 ev.value) ++
            (encodeBytes 2 ev.ty ++ encodeBytes 2 ev.code))) := by
      simp [encodeInputEvent, List.append_assoc]
    rw [hassoc]
    have h16 : (encodeBytes 8 (toU 64 ev.time_sec) ++
        encodeBytes 8 (toU 64 ev.time_usec)).length = 16 := by
      simp [length_encodeBytes]
    rw [List.drop_left' h16, List.take_left' (length_encodeBytes 8 ev.id)]
  refine ⟨?_, ?_, ?_, ?_, ?_, ?_, ?_⟩
  · intro n
    exact ⟨length_encodeBytes 8 n, by rw [decodeBytes_encodeBytes, hpow]⟩
  · intro ev
    refine ⟨?_, hslice ev, ?_⟩
    · simp [encodeInputEvent, length_encodeBytes]
    · rw [guestInputEventIdOfBytes, hslice ev, decodeBytes_encodeBytes, hpow]
  · intro r
    refine ⟨length_encodeBytes 8 r.id, ?_⟩
    rw [decodeRemoveDevice, encodeRemoveDevice,
      List.take_of_length_le (length_encodeBytes 8 r.id).le,
      decodeBytes_encodeBytes, hpow]
  · intro d
    rfl
  · intro fd e
    rfl
  · intro st dev_name fd h
    rw [EvdevContainer.remove, h]
  · intro fd
    calc castU32 fd < 2 ^ 32 := Nat.mod_lt fd (by norm_num)
    _ ≤ 2 ^ 64 := by norm_num

/-- C1 witness: removing the registered device event0 on fd 3 yields the
same id the AddDevice and InputEvent frames carry for it. -/
theorem C1_device_id_width_witness :
    (EvdevContainer.remove regOne ev0Chars).2 = some (castU32 3) :=
  C1_device_id_width.2.2.2.2.2.1 regOne ev0Chars 3 (by decide)

/-- C3: is_joystick agrees with the spec formula whenever all four probe
reads succeed, and an I/O error of any probe that is actually reached
propagates as an error. -/
theorem C3_is_joystick_classification :
    (∀ props events axes keys,
      is_joystick ⟨.ok props, .ok events, .ok axes, .ok keys⟩ =
        .ok (is_joystick_claim props events axes keys)) ∧
    (∀ e eb am km, is_joystick ⟨.error e, eb, am, km⟩ = .error e) ∧
    (∀ props e am km, joystickDenyProps props = false →
      is_joystick ⟨.ok props, .error e, am, km⟩ = .error e) ∧
    (∀ props events e km, joystickDenyProps props = false →
      EventKind.Absolute ∈ events →
      is_joystick ⟨.ok props, .ok events, .error e, km⟩ = .error e) ∧
    (∀ props events axes e, joystickDenyProps props = false →
      EventKind.Absolute ∈ events → AbsoluteAxis.X ∈ axes → AbsoluteAxis.Y ∈ axes →
      is_joystick ⟨.ok props, .ok events, .ok axes, .error e⟩ = .error e) := by
  refine ⟨?_, ?_, ?_, ?_, ?_⟩
  · intro props events axes keys
    by_cases h1 : InputProperty.Accelerometer ∈ props ∨ InputProperty.PointingStick ∈ props ∨
        InputProperty.TopButtonPad ∈ props ∨ InputProperty.ButtonPad ∈ props ∨
        InputProperty.SemiMultiTouch ∈ props
    · simp [is_joystick, is_joystick_claim, joystickDenyProps, h1]
    · by_cases h2 : EventKind.Absolute ∈ events
      · by_cases h3 : AbsoluteAxis.X ∈ axes
        · by_cases h4 : AbsoluteAxis.Y ∈ axes
          · simp [is_joystick, is_joystick_claim, joystickDenyProps, h1, h2, h3, h4]
          · simp [is_joystick, is_joystick_claim, joystickDenyProps, h1, h2, h3, h4]
        · simp [is_joystick, is_joystick_claim, joystickDenyProps, h1, h2, h3]
      · simp [is_joystick, is_joystick_claim, joystickDenyProps, h1, h2]
  · intro e eb am km
    rfl
  · intro props e am km hden
    rw [joystickDenyProps, decide_eq_false_iff_not] at hden
    simp [is_joystick, hden]
  · intro props events e km hden habs
    rw [joystickDenyProps, decide_eq_false_iff_not] at hden
    simp [is_joystick, hden, habs]
  · intro props events axes e hden habs hx hy
    rw [joystickDenyProps, decide_eq_false_iff_not] at hden
    simp [is_joystick, hden, habs, hx, hy]

/-- C3 witness: with clean properties and the absolute event kind present,
an errno from the absolute-mask probe propagates. -/
theorem C3_is_joystick_classification_witness :
    is_joystick ⟨.ok [], .ok [EventKind.Absolute], .error 5, .ok []⟩ = .error 5 :=
  C3_is_joystick_classification.2.2.2.1 [] [EventKind.Absolute] 5 (.ok [])
    (by decide) (by decide)

/-- C4: send_add_device emits the AddDevice tag and the fixed record first,
then exactly popcount(absbits) AbsoluteInfo records, one per set bit of the
absolute mask in ascending numeric bit order, and init_uinput consumes one
AbsoluteInfo per set bit of the received absbits field over exactly the
same ascending bit list. -/
theorem C4_absinfo_framing (d : EvdevDevice) (habs : d.absbits < 2 ^ 64) :
    (sendAddDevice d).take 2 =
      [WireItem.msgTag MessageType.AddDevice, WireItem.addDev (mkAddDevice d)] ∧
    (sendAddDevice d).countP isAbsInfoItem = popcount (mkAddDevice d).absbits ∧
    (sendAddDevice d).drop 2 =
      (clientAbsReads (mkAddDevice d).absbits).map
        (fun b => WireItem.absInfo (d.absinfo b)) ∧
    (clientAbsReads (mkAddDevice d).absbits).Pairwise (fun a b => a < b) ∧
    (clientAbsReads (mkAddDevice d).absbits).length = popcount (mkAddDevice d).absbits := by
  have habs2 : (mkAddDevice d).absbits = d.absbits := rfl
  have hreads : clientAbsReads (mkAddDevice d).absbits = bitmaskIter ABS_CNT d.absbits := by
    rw [habs2, clientAbsReads, bitmaskFromSlice]
    exact bitmaskIter_mod d.absbits
  refine ⟨rfl, ?_, ?_, ?_, ?_⟩
  · rw [sendAddDevice, habs2]
    simp only [List.countP_cons, List.countP_map]
    have hzero : ∀ t : MessageType, isAbsInfoItem (WireItem.msgTag t) = false := by
      intro t
      rfl
    have hcomp : (isAbsInfoItem ∘ fun b => WireItem.absInfo (d.absinfo b)) =
        fun _ => true := by
      funext b
      rfl
    rw [hcomp, List.countP_true, hzero]
    simp [isAbsInfoItem, bitmaskIter_length ABS_CNT d.absbits habs]
  · rw [hreads, sendAddDevice]
    rfl
  · rw [hreads]
    exact bitmaskIter_ascending ABS_CNT d.absbits
  · rw [hreads]
    exact bitmaskIter_length ABS_CNT d.absbits habs

/-- C4 witness: the concrete device devA with absbits 3 produces two
AbsoluteInfo records, matching popcount 3. -/
theorem C4_absinfo_framing_witness :
    (sendAddDevice devA).countP isAbsInfoItem = popcount (mkAddDevice devA).absbits :=
  (C4_absinfo_framing devA (by decide)).2.1

/-- C2 counterexample: from the bijective one-device registry regOne, a
second check_and_add of the already registered sysname event0 (fresh fd 4,
positive probe) yields regTwo, whose fd map keeps the stale entry for fd 3
while the name map holds only fd 4: the one-to-one correspondence is broken
and the state is not equivalent to a single add. -/
theorem C2_registry_counterexample :
    hostBijection regOne ∧
    check_and_add regOne ev0Chars (.ok 4) (.ok true) = .ok (regTwo, some 4) ∧
    ¬ hostBijection regTwo ∧
    regTwo.fds_to_devs.map Prod.fst = [4, 3] ∧
    regTwo.names_to_fds.map Prod.snd = [4] := by
  refine ⟨?_, by rfl, ?_, rfl, rfl⟩
  · unfold hostBijection
    decide
  · unfold hostBijection
    decide

/-- C2 (amended): the host maps and the guest maps are kept in one-to-one
correspondence by every operation whose inserted keys are fresh, that is by
check_and_add for a sysname not yet registered on a freshly opened fd, by
EvdevContainer::remove for any sysname (with fds below 2 to the 32, as raw
fds always are), by a guest AddDevice with fresh id and fresh synthetic fd
and by a guest RemoveDevice for any id; a check_and_add for an already
registered sysname, however, breaks the correspondence by leaving the stale
fd entry behind, so it is not equivalent to a single add. -/
theorem C2_registry_bijection_amended :
    (∀ (st : EvdevContainer) (dev_name : List Char) (fd : Nat) (jb : Bool)
        (st2 : EvdevContainer) (r : Option Nat), hostBijection st →
      fd ∉ st.fds_to_devs.map Prod.fst →
      dev_name ∉ st.names_to_fds.map Prod.fst →
      check_and_add st dev_name (.ok fd) (.ok jb) = .ok (st2, r) →
      hostBijection st2) ∧
    (∀ (st : EvdevContainer) (dev_name : List Char), hostBijection st →
      (∀ v ∈ st.names_to_fds.map Prod.snd, v < 2 ^ 32) →
      hostBijection (EvdevContainer.remove st dev_name).1) ∧
    (∀ (g : GuestState) (id ufd : Nat), guestBijection g →
      id ∉ g.inputs_by_id.map Prod.fst → ufd ∉ g.fd_to_id.map Prod.fst →
      guestBijection (guestAdd g id ufd)) ∧
    (∀ (g : GuestState) (id : Nat), guestBijection g →
      guestBijection (guestRemove g id).1) := by
  refine ⟨?_, ?_, ?_, ?_⟩
  · intro st dev_name fd jb st2 r hbij hfd hname hca
    cases hpre : isPrefixOfL evChars dev_name with
    | false =>
      simp only [check_and_add, hpre, Bool.not_false, if_true, Except.ok.injEq,
        Prod.mk.injEq] at hca
      exact hca.1 ▸ hbij
    | true =>
      cases jb with
      | false =>
        simp [check_and_add, hpre] at hca
        exact hca.1 ▸ hbij
      | true =>
        simp [check_and_add, hpre] at hca
        obtain ⟨hst, _⟩ := hca
        obtain ⟨hperm, hvnd, hknd, hnnd⟩ := hbij
        have hef : eraseKeyA st.fds_to_devs fd = st.fds_to_devs :=
          eraseKeyA_of_not_mem _ fd hfd
        have hen : eraseKeyA st.names_to_fds dev_name = st.names_to_fds :=
          eraseKeyA_of_not_mem _ dev_name hname
        have hfvals : fd ∉ st.names_to_fds.map Prod.snd := fun hmem =>
          hfd (hperm.mem_iff.mpr hmem)
        rw [← hst]
        refine ⟨?_, ?_, ?_, ?_⟩
        · show (((fd, fd) :: eraseKeyA st.fds_to_devs fd).map Prod.fst).Perm
            (((dev_name, fd) :: eraseKeyA st.names_to_fds dev_name).map Prod.snd)
          rw [hef, hen, List.map_cons, List.map_cons]
          exact hperm.cons _
        · show (((dev_name, fd) :: eraseKeyA st.names_to_fds dev_name).map Prod.snd).Nodup
          rw [hen, List.map_cons, List.nodup_cons]
          exact ⟨hfvals, hvnd⟩
        · show (((fd, fd) :: eraseKeyA st.fds_to_devs fd).map Prod.fst).Nodup
          rw [hef, List.map_cons, List.nodup_cons]
          exact ⟨hfd, hknd⟩
        · show (((dev_name, fd) :: eraseKeyA st.names_to_fds dev_name).map Prod.fst).Nodup
          rw [hen, List.map_cons, List.nodup_cons]
          exact ⟨hname, hnnd⟩
  · intro st dev_name hbij hvals
    rw [EvdevContainer.remove]
    cases hl : lookupA st.names_to_fds dev_name with
    | none => exact hbij
    | some f =>
      obtain ⟨hperm, hvnd, hknd, hnnd⟩ := hbij
      have hfvals : f ∈ st.names_to_fds.map Prod.snd :=
        List.mem_map.mpr ⟨(dev_name, f), mem_of_lookupA _ _ _ hl, rfl⟩
      have hcast : castU32 f = f := Nat.mod_eq_of_lt (hvals f hfvals)
      have hnperm := perm_cons_eraseKeyA st.names_to_fds dev_name f hnnd hl
      have hnvals : (st.names_to_fds.map Prod.snd).Perm
          (f :: (eraseKeyA st.names_to_fds dev_name).map Prod.snd) := by
        simpa using hnperm.map Prod.snd
      have hfkeys : f ∈ st.fds_to_devs.map Prod.fst := hperm.mem_iff.mpr hfvals
      obtain ⟨w, hw⟩ := exists_lookupA_of_mem_keys _ f hfkeys
      have hfperm := perm_cons_eraseKeyA st.fds_to_devs f w hknd hw
      have hfkeysperm : (st.fds_to_devs.map Prod.fst).Perm
          (f :: (eraseKeyA st.fds_to_devs f).map Prod.fst) := by
        simpa using hfperm.map Prod.fst
      refine ⟨?_, ?_, ?_, ?_⟩
      · simp only [hcast]
        exact ((hfkeysperm.symm.trans hperm).trans hnvals).cons_inv
      · exact List.Nodup.sublist
          ((eraseKeyA_sublist st.names_to_fds dev_name).map Prod.snd) hvnd
      · exact List.Nodup.sublist
          ((eraseKeyA_sublist st.fds_to_devs (castU32 f)).map Prod.fst) hknd
      · exact List.Nodup.sublist
          ((eraseKeyA_sublist st.names_to_fds dev_name).map Prod.fst) hnnd
  · intro g id ufd hbij hid hufd
    obtain ⟨hperm, hin, hfd⟩ := hbij
    have hei : eraseKeyA g.inputs_by_id id = g.inputs_by_id :=
      eraseKeyA_of_not_mem _ id hid
    have hef : eraseKeyA g.fd_to_id ufd = g.fd_to_id :=
      eraseKeyA_of_not_mem _ ufd hufd
    refine ⟨?_, ?_, ?_⟩
    · show (((id, ufd) :: eraseKeyA g.inputs_by_id id).map (fun p => (p.2, p.1))).Perm
        ((ufd, id) :: eraseKeyA g.fd_to_id ufd)
      rw [hei, hef, List.map_cons]
      exact hperm.cons _
    · show (((id, ufd) :: eraseKeyA g.inputs_by_id id).map Prod.fst).Nodup
      rw [hei, List.map_cons, List.nodup_cons]
      exact ⟨hid, hin⟩
    · show (((ufd, id) :: eraseKeyA g.fd_to_id ufd).map Prod.fst).Nodup
      rw [hef, List.map_cons, List.nodup_cons]
      exact ⟨hufd, hfd⟩
  · intro g id hbij
    rw [guestRemove]
    cases hl : lookupA g.inputs_by_id id with
    | none => exact hbij
    | some ufd =>
      obtain ⟨hperm, hin, hfd⟩ := hbij
      have hiperm := perm_cons_eraseKeyA g.inputs_by_id id ufd hin hl
      have hswap : (g.inputs_by_id.map (fun p => (p.2, p.1))).Perm
          ((ufd, id) :: (eraseKeyA g.inputs_by_id id).map (fun p => (p.2, p.1))) := by
        simpa using hiperm.map (fun p => (p.2, p.1))
      have hmemf : (ufd, id) ∈ g.fd_to_id := hperm.mem_iff.mp
        (List.mem_map.mpr ⟨(id, ufd), mem_of_lookupA _ _ _ hl, rfl⟩)
      have hfl : lookupA g.fd_to_id ufd = some id :=
        lookupA_of_mem_nodup _ ufd id hmemf hfd
      have hfperm := perm_cons_eraseKeyA g.fd_to_id ufd id hfd hfl
      refine ⟨?_, ?_, ?_⟩
      · exact ((hswap.symm.trans hperm).trans hfperm).cons_inv
      · exact List.Nodup.sublist
          ((eraseKeyA_sublist g.inputs_by_id id).map Prod.fst) hin
      · exact List.Nodup.sublist
          ((eraseKeyA_sublist g.fd_to_id ufd).map Prod.fst) hfd

/-- C2 witness: a fresh add of event0 on fd 3 into the empty registry
preserves the correspondence, yielding the bijective registry regOne. -/
theorem C2_registry_bijection_amended_witness : hostBijection regOne :=
  C2_registry_bijection_amended.1 ⟨[], []⟩ ev0Chars 3 true regOne (some 3)
    (by unfold hostBijection; decide) (by decide) (by decide) (by rfl)

/-- C5: Client::read allocates the buffer to the requested size when it is
empty, aborts on a size mismatch with a non-empty buffer, maps a 0-byte
socket read to Hangup, keeps buffer and filled for a retry on a partial
read (NotReady), returns the size collected bytes and resets the buffer on
completion, and propagates any I/O error. -/
theorem C5_client_read (c : ClientBuf) (size : Nat) :
    (∀ sock, ¬ c.buf.length = 0 → ¬ c.buf.length = size →
      clientRead c size sock = .apiMisuse) ∧
    ((c.buf = [] ∨ c.buf.length = size) → (allocBuf c size).length = size) ∧
    (∀ e, (c.buf = [] ∨ c.buf.length = size) →
      clientRead c size (.error e) = .ioError e ⟨allocBuf c size, c.filled⟩) ∧
    ((c.buf = [] ∨ c.buf.length = size) →
      clientRead c size (.ok []) = .ok .hangup ⟨allocBuf c size, c.filled⟩) ∧
    (∀ chunk, (c.buf = [] ∨ c.buf.length = size) → ¬ chunk = [] →
      c.filled + chunk.length < size →
      clientRead c size (.ok chunk) = .ok .notReady
        ⟨(allocBuf c size).take c.filled ++ chunk ++
          (allocBuf c size).drop (c.filled + chunk.length), c.filled + chunk.length⟩ ∧
      ((allocBuf c size).take c.filled ++ chunk ++
        (allocBuf c size).drop (c.filled + chunk.length)).length = size) ∧
    (∀ chunk, (c.buf = [] ∨ c.buf.length = size) → ¬ chunk = [] →
      c.filled + chunk.length = size →
      clientRead c size (.ok chunk) = .ok
        (.data ((allocBuf c size).take c.filled ++ chunk ++
          (allocBuf c size).drop (c.filled + chunk.length))) ⟨[], 0⟩ ∧
      (c.filled ≤ size →
        ((allocBuf c size).take c.filled ++ chunk ++
          (allocBuf c size).drop (c.filled + chunk.length)).length = size)) := by
  have hlen : (c.buf = [] ∨ c.buf.length = size) → (allocBuf c size).length = size := by
    intro h
    rw [allocBuf]
    by_cases hb : c.buf.length = 0
    · simp [hb]
    · rcases h with he | hs
      · exact absurd (by simp [he]) hb
      · rw [if_neg hb]
        exact hs
  have hred : (c.buf = [] ∨ c.buf.length = size) → ∀ sock,
      clientRead c size sock = clientReadCore ⟨allocBuf c size, c.filled⟩ size sock := by
    intro h sock
    rw [clientRead, allocBuf]
    by_cases hb : c.buf.length = 0
    · rw [if_pos hb, if_pos hb]
    · rcases h with he | hs
      · exact absurd (by simp [he]) hb
      · rw [if_neg hb, if_neg hb, if_neg (by rw [hs]; exact fun hn => hn rfl)]
  refine ⟨?_, hlen, ?_, ?_, ?_, ?_⟩
  · intro sock hb hs
    rw [clientRead, if_neg hb, if_pos hs]
  · intro e h
    rw [hred h]
    rfl
  · intro h
    rw [hred h]
    rfl
  · intro chunk h hchunk hlt
    have hne : ¬ chunk.length = 0 := by simpa using hchunk
    constructor
    · rw [hred h, clientReadCore]
      simp only [if_neg hne]
      rw [if_neg (Nat.ne_of_lt hlt)]
    · have hsz := hlen h
      simp only [List.length_append, List.length_take, List.length_drop, hsz]
      omega
  · intro chunk h hchunk heq
    have hne : ¬ chunk.length = 0 := by simpa using hchunk
    constructor
    · rw [hred h, clientReadCore]
      simp only [if_neg hne]
      rw [if_pos heq]
    · intro _
      have hsz := hlen h
      simp only [List.length_append, List.length_take, List.length_drop, hsz]
      omega

/-- C5 witness: the complete-read case with an empty in-flight buffer,
four requested and four delivered bytes, returning the bytes and resetting
the state. -/
theorem C5_client_read_witness :
    clientRead ⟨[], 0⟩ 4 (.ok [9, 9, 9, 9]) = .ok
      (.data ((allocBuf ⟨[], 0⟩ 4).take 0 ++ [9, 9, 9, 9] ++
        (allocBuf ⟨[], 0⟩ 4).drop (0 + 4))) ⟨[], 0⟩ :=
  ((C5_client_read ⟨[], 0⟩ 4).2.2.2.2.2 [9, 9, 9, 9] (Or.inl rfl)
    (by decide) (by decide)).1

theorem runWrites_nil (fa : Option Nat) : runWrites fa [] = ([], true) := by
  cases fa with
  | none => rfl
  | some k => simp [runWrites]

theorem lookupA_bcast_writes (f : SClient → List WireItem)
    (cl : List (Nat × SClient)) (k : Nat) (c : SClient)
    (hwf : WFA cl) (hmem : (k, c) ∈ cl) :
    lookupA (bcast f cl).2 k = some (runWrites c.failAt (f c)).1 := by
  rw [bcast_snd]
  exact lookupA_map_keyed (fun _ v => (runWrites v.failAt (f v)).1) cl k c hwf hmem

/-- C6: a client that completes its hello is sent, inside one unicast
hangup-on-error scope, exactly one ServerHello (version 0) followed by a
full AddDevice sequence for every device in the registry at that moment;
ready becomes true only when all of those writes succeeded; and a wake on a
ready client's fd changes nothing and writes nothing. -/
theorem C6_ready_protocol :
    (∀ devs (c : SClient), c.failAt = none →
      processHello devs c = (some { c with ready := true }, helloWrites devs)) ∧
    (∀ devs (c c2 : SClient) sent, processHello devs c = (some c2, sent) →
      c2.ready = true ∧ sent = helloWrites devs ∧
      sent.countP isServerHelloItem = 1 ∧
      sent = WireItem.serverHello 0 :: (devs.map sendAddDevice).flatten) ∧
    (∀ clients devs fd sock (c : SClient), lookupA clients fd = some c →
      c.ready = true → clientWake clients devs fd sock = some (clients, [])) := by
  have hfull : ∀ devs (c c2 : SClient) sent, processHello devs c = (some c2, sent) →
      c2.ready = true ∧ sent = helloWrites devs := by
    intro devs c c2 sent hph
    cases hfa : c.failAt with
    | none =>
      rw [processHello, hfa] at hph
      simp only [runWrites] at hph
      simp at hph
      obtain ⟨hc2, hsent⟩ := hph
      exact ⟨by rw [← hc2], hsent.symm⟩
    | some k =>
      rw [processHello, hfa] at hph
      by_cases hk : (helloWrites devs).length ≤ k
      · simp only [runWrites] at hph
        simp [hk] at hph
        obtain ⟨hc2, hsent⟩ := hph
        exact ⟨by rw [← hc2], hsent.symm⟩
      · simp only [runWrites] at hph
        simp [hk] at hph
  refine ⟨?_, ?_, ?_⟩
  · intro devs c hfa
    rw [processHello, hfa]
    rfl
  · intro devs c c2 sent hph
    obtain ⟨hready, hsent⟩ := hfull devs c c2 sent hph
    subst hsent
    exact ⟨hready, rfl, countP_serverHello_helloWrites devs, rfl⟩
  · intro clients devs fd sock c hc hready
    simp [clientWake, hc, hready]

/-- C6 witness: a wake on the fd of the already ready client 5 leaves the
table unchanged and writes nothing. -/
theorem C6_ready_protocol_witness :
    clientWake [(5, readyClient)] [] 5 (.ok []) = some ([(5, readyClient)], []) :=
  C6_ready_protocol.2.2 [(5, readyClient)] [] 5 (.ok []) readyClient
    (by decide) (by decide)

theorem lookupA_none_of_not_mem_keys {K V : Type} [DecidableEq K] :
    ∀ (m : List (K × V)) (k : K), k ∉ m.map Prod.fst → lookupA m k = none := by
  intro m k
  induction m with
  | nil => intro _; rfl
  | cons p rest ih =>
    intro h
    have hne : ¬ p.1 = k := fun he => h (by simp [he])
    rw [lookupA, if_neg hne]
    exact ih (fun hm => h (by simp [hm]))

theorem lookupA_filter_false {K V : Type} [DecidableEq K] (pr : K × V → Bool) :
    ∀ (m : List (K × V)) (k : K) (v : V), WFA m → (k, v) ∈ m → pr (k, v) = false →
      lookupA (m.filter pr) k = none := by
  intro m k v
  induction m with
  | nil => intro _ h _; simp at h
  | cons p rest ih =>
    intro hwf hmem hpr
    rw [WFA, List.map_cons, List.nodup_cons] at hwf
    rw [List.filter_cons]
    rcases List.mem_cons.mp hmem with heq | htail
    · rw [← heq, hpr]
      simp only [Bool.false_eq_true, if_false]
      refine lookupA_none_of_not_mem_keys _ _ ?_
      intro hk
      have hmemr : k ∈ rest.map Prod.fst :=
        List.Sublist.mem hk ((List.filter_sublist rest).map Prod.fst)
      have hp1 : p.1 = k := by rw [← heq]
      exact hwf.1 (hp1 ▸ hmemr)
    · have hk : k ∈ rest.map Prod.fst := List.mem_map.mpr ⟨(k, v), htail, rfl⟩
      have hne : ¬ p.1 = k := fun he => hwf.1 (he ▸ hk)
      by_cases hp : pr p = true
      · rw [if_pos hp, lookupA, if_neg hne]
        exact ih hwf.2 htail hpr
      · rw [if_neg hp]
        exact ih hwf.2 htail hpr

theorem lookupA_filter_true {K V : Type} [DecidableEq K] (pr : K × V → Bool) :
    ∀ (m : List (K × V)) (k : K) (v : V), WFA m → (k, v) ∈ m → pr (k, v) = true →
      lookupA (m.filter pr) k = some v := by
  intro m k v
  induction m with
  | nil => intro _ h _; simp at h
  | cons p rest ih =>
    intro hwf hmem hpr
    rw [WFA, List.map_cons, List.nodup_cons] at hwf
    rw [List.filter_cons]
    rcases List.mem_cons.mp hmem with heq | htail
    · rw [← heq, hpr]
      simp only [if_true]
      rw [lookupA, if_pos rfl]
    · have hk : k ∈ rest.map Prod.fst := List.mem_map.mpr ⟨(k, v), htail, rfl⟩
      have hne : ¬ p.1 = k := fun he => hwf.1 (he ▸ hk)
      by_cases hp : pr p = true
      · rw [if_pos hp, lookupA, if_neg hne]
        exact ih hwf.2 htail hpr
      · rw [if_neg hp]
        exact ih hwf.2 htail hpr

/-- C7: in a broadcast on the evdev input path, a client whose hello has
not completed (ready false) is written nothing at all, whereas the hotplug
RemoveDevice and AddDevice broadcasts write the full frame sequence to
every client in the table regardless of its ready flag. -/
theorem C7_unready_input_event_gating :
    (∀ ev clients k (c : SClient), WFA clients → (k, c) ∈ clients →
      c.ready = false →
      lookupA (bcast (inputEvClosure ev) clients).2 k = some []) ∧
    (∀ id clients k (c : SClient), WFA clients → (k, c) ∈ clients →
      c.failAt = none →
      lookupA (bcast (removeClosure id) clients).2 k =
        some [WireItem.msgTag MessageType.RemoveDevice, WireItem.removeDev ⟨id⟩]) ∧
    (∀ d clients k (c : SClient), WFA clients → (k, c) ∈ clients →
      c.failAt = none →
      lookupA (bcast (addClosure d) clients).2 k = some (sendAddDevice d)) := by
  refine ⟨?_, ?_, ?_⟩
  · intro ev clients k c hwf hmem hready
    rw [lookupA_bcast_writes (inputEvClosure ev) clients k c hwf hmem]
    rw [inputEvClosure, hready]
    simp [runWrites_nil]
  · intro id clients k c hwf hmem hfa
    rw [lookupA_bcast_writes (removeClosure id) clients k c hwf hmem, hfa]
    rfl
  · intro d clients k c hwf hmem hfa
    rw [lookupA_bcast_writes (addClosure d) clients k c hwf hmem, hfa]
    rfl

/-- C7 witness: the not-ready client 5 is written nothing by an input-event
broadcast. -/
theorem C7_unready_input_event_gating_witness :
    lookupA (bcast (inputEvClosure evX) [(5, newClient)]).2 5 = some [] :=
  C7_unready_input_event_gating.1 evX [(5, newClient)] 5 newClient
    (by unfold WFA; decide) (by decide) (by decide)

/-- C8: a broadcast applies the writer to every client in turn, retains
exactly those for which it succeeded (unchanged), removes exactly those for
which it failed, and what is written to one client is a function of that
client alone. -/
theorem C8_broadcast_error_isolation (f : SClient → List WireItem)
    (clients : List (Nat × SClient)) :
    (bcast f clients).1 =
      clients.filter (fun p => (runWrites p.2.failAt (f p.2)).2) ∧
    (bcast f clients).2 =
      clients.map (fun p => (p.1, (runWrites p.2.failAt (f p.2)).1)) ∧
    (∀ q, q ∈ (bcast f clients).1 → q ∈ clients) ∧
    (∀ k c, WFA clients → (k, c) ∈ clients →
      (runWrites c.failAt (f c)).2 = false →
      lookupA (bcast f clients).1 k = none) ∧
    (∀ k c, WFA clients → (k, c) ∈ clients →
      (runWrites c.failAt (f c)).2 = true →
      lookupA (bcast f clients).1 k = some c) ∧
    (∀ k c, WFA clients → (k, c) ∈ clients →
      lookupA (bcast f clients).2 k = some (runWrites c.failAt (f c)).1) := by
  refine ⟨bcast_fst f clients, bcast_snd f clients, ?_, ?_, ?_, ?_⟩
  · intro q hq
    rw [bcast_fst] at hq
    exact List.mem_of_mem_filter hq
  · intro k c hwf hmem hfail
    rw [bcast_fst]
    exact lookupA_filter_false _ clients k c hwf hmem hfail
  · intro k c hwf hmem hok
    rw [bcast_fst]
    exact lookupA_filter_true _ clients k c hwf hmem hok
  · intro k c hwf hmem
    exact lookupA_bcast_writes f clients k c hwf hmem

/-- C8 witness: broadcasting a RemoveDevice frame over the one-client table
writes the two framed items to client 5. -/
theorem C8_broadcast_error_isolation_witness :
    lookupA (bcast (removeClosure 7) [(5, newClient)]).2 5 =
      some (runWrites newClient.failAt (removeClosure 7 newClient)).1 :=
  (C8_broadcast_error_isolation (removeClosure 7) [(5, newClient)]).2.2.2.2.2
    5 newClient (by unfold WFA; decide) (by decide)

/-- C9: on the guest, RemoveDevice for an unknown id is a no-op on maps,
reactor registrations and devices; InputEvent for an unknown id is silently
dropped; RemoveDevice for a known id deregisters the synthetic fd, destroys
the device and drops it from both maps; any tag outside 0, 1, 2 is fatal. -/
theorem C9_guest_dispatch_errors :
    (∀ st id, lookupA st.inputs_by_id id = none → guestRemove st id = (st, [])) ∧
    (∀ st (ev : InputEvent), lookupA st.inputs_by_id ev.id = none →
      guestInput st ev = (st, [])) ∧
    (∀ st id ufd, lookupA st.inputs_by_id id = some ufd →
      guestRemove st id =
        ({ inputs_by_id := eraseKeyA st.inputs_by_id id,
           fd_to_id := eraseKeyA st.fd_to_id ufd,
           epollFds := st.epollFds.filter (fun x => decide (¬ x = ufd)) },
         [GuestEffect.destroy ufd])) ∧
    (∀ st tag a nf r e, ¬ (tag = 0 ∨ tag = 1 ∨ tag = 2) →
      guestDispatch st tag a nf r e = none) ∧
    (∀ st a nf (r : RemoveDevice) e,
      guestDispatch st 1 a nf r e = some (guestRemove st r.id)) ∧
    (∀ st a nf r (e : InputEvent),
      guestDispatch st 2 a nf r e = some (guestInput st e)) := by
  refine ⟨?_, ?_, ?_, ?_, ?_, ?_⟩
  · intro st id h
    simp [guestRemove, h]
  · intro st ev h
    simp [guestInput, h]
  · intro st id ufd h
    simp [guestRemove, h]
  · intro st tag a nf r e h
    push_neg at h
    obtain ⟨h0, h1, h2⟩ := h
    simp only [guestDispatch, ADD_DEVICE, REMOVE_DEVICE, INPUT_EVENT, MessageType.tag]
    rw [if_neg h0, if_neg h1, if_neg h2]
  · intro st a nf r e
    rfl
  · intro st a nf r e
    rfl

/-- C9 witness: removing the unknown id 9 from the empty guest state leaves
it untouched and destroys nothing. -/
theorem C9_guest_dispatch_errors_witness :
    guestRemove ⟨[], [], []⟩ 9 = (⟨[], [], []⟩, []) :=
  C9_guest_dispatch_errors.1 ⟨[], [], []⟩ 9 (by rfl)

theorem clientRead_complete_hello (p : List Nat) (hp : p.length = helloSize) :
    clientRead ⟨[], 0⟩ helloSize (.ok p) = .ok (.data p) ⟨[], 0⟩ := by
  rw [clientRead]
  have h0 : (([] : List Nat)).length = 0 := rfl
  rw [if_pos h0, clientReadCore]
  have hne : ¬ p.length = 0 := by rw [hp]; decide
  rw [if_neg hne]
  have hfull : 0 + p.length = helloSize := by rw [hp, Nat.zero_add]
  rw [if_pos hfull]
  have hbuf : (List.replicate helloSize 0).take 0 ++ p ++
      (List.replicate helloSize 0).drop (0 + p.length) = p := by
    rw [hp]
    simp [helloSize]
  rw [hbuf]

theorem clientWake_data_step (clients : List (Nat × SClient))
    (devs : List EvdevDevice) (fd : Nat) (c : SClient)
    (sock : Except Nat (List Nat)) (payload : List Nat)
    (hc : lookupA clients fd = some c) (hready : c.ready = false)
    (hread : clientRead ⟨c.buf, c.filled⟩ helloSize sock = .ok (.data payload) ⟨[], 0⟩) :
    clientWake clients devs fd sock = some (helloStep clients devs fd c) := by
  simp only [clientWake, hc, hready, Bool.false_eq_true, if_false, hread, helloStep]
  cases hps : processHello devs (SClient.mk false [] 0 c.failAt) with
  | mk o sent => cases o <;> simp [hps]

/-- C10: the server never examines the content of a received ClientHello:
for any two complete 4-byte hello payloads the whole subsequent step of the
reactor, including the ServerHello, the catch-up AddDevice sequences and
the ready transition, is identical. -/
theorem C10_hello_content_independence (clients : List (Nat × SClient))
    (devs : List EvdevDevice) (fd : Nat) (c : SClient) (p q : List Nat)
    (hc : lookupA clients fd = some c) (hr : c.ready = false)
    (hb : c.buf = []) (hf : c.filled = 0)
    (hp : p.length = helloSize) (hq : q.length = helloSize) :
    clientWake clients devs fd (.ok p) = clientWake clients devs fd (.ok q) := by
  have hrp : clientRead ⟨c.buf, c.filled⟩ helloSize (.ok p) = .ok (.data p) ⟨[], 0⟩ := by
    rw [hb, hf]
    exact clientRead_complete_hello p hp
  have hrq : clientRead ⟨c.buf, c.filled⟩ helloSize (.ok q) = .ok (.data q) ⟨[], 0⟩ := by
    rw [hb, hf]
    exact clientRead_complete_hello q hq
  rw [clientWake_data_step clients devs fd c (.ok p) p hc hr hrp,
    clientWake_data_step clients devs fd c (.ok q) q hc hr hrq]

/-- C10 witness: two different 4-byte hello payloads produce the identical
reactor step for the fresh client 5. -/
theorem C10_hello_content_independence_witness :
    clientWake [(5, newClient)] [] 5 (.ok [0, 0, 0, 0]) =
      clientWake [(5, newClient)] [] 5 (.ok [1, 2, 3, 4]) :=
  C10_hello_content_independence [(5, newClient)] [] 5 newClient
    [0, 0, 0, 0] [1, 2, 3, 4] (by decide) (by decide) (by decide) (by decide)
    (by decide) (by decide)

end Hidpipe
